import Mathlib

/-!
# Verification of the rio terminal screen controller

Shallow embedding of `src/rio/src/screen/mod.rs` (the `Screen` façade of the
rio terminal): mouse-report wire encodings, key-binding suppression flag,
tab closing, selection handling and paste framing, together with theorems
checking the specification's claims against the embedded code.

Machine integers are modelled as `Nat`/`Int`; every place the Rust code
performs a `u8` cast or `u8` arithmetic is rendered with an explicit
`% 256`.  Byte-level wire output is modelled as `List Nat` (one entry per
byte); each call to `Messenger::send_bytes` contributes one payload to a
`List` of payloads.
-/

namespace Rio

/-- Winit-style modifier state restricted to the three bits
`mouse_report` and `input_keycode` read: shift, alt, ctrl
(`winit::event::ModifiersState`). -/
structure ModifiersState where
  shift : Bool
  alt : Bool
  ctrl : Bool
deriving DecidableEq

/-- The terminal-mode bits of `crosswords::Mode` that the functions
embedded here consult: `SGR_MOUSE`, `UTF8_MOUSE`, `VI`,
`BRACKETED_PASTE`. -/
structure Mode where
  sgr_mouse : Bool
  utf8_mouse : Bool
  vi : Bool
  bracketed_paste : Bool
deriving DecidableEq

/-- `winit::event::ElementState`: a mouse button press or release. -/
inductive ElementState where
  | Pressed
  | Released
deriving DecidableEq

/-- A resolved cell position (`crosswords::pos::Pos`): `row` is a signed
line index (`Line` wraps an `i32`; negative means scrollback above the
viewport), `col` an unsigned column (`Column` wraps a `usize`). -/
structure Pos where
  row : Int
  col : Nat
deriving DecidableEq

/-- The modifier increment computed at the top of `Screen::mouse_report`:
`mods = 4*shift + 8*alt + 16*ctrl`. -/
def mods_value (m : ModifiersState) : Nat :=
  (if m.shift then 4 else 0) + (if m.alt then 8 else 0) + (if m.ctrl then 16 else 0)

/-- The `mouse_pos_encode` closure inside `Screen::normal_mouse_report`:
for UTF-8-extended coordinates it emits two bytes
`0xC0 + (33+pos)/64` and `0x80 + ((33+pos) & 63)`, each truncated by the
`as u8` cast. -/
def mouse_pos_encode (pos : Nat) : List Nat :=
  let p := 32 + 1 + pos
  [(0xC0 + p / 64) % 256, (0x80 + p % 64) % 256]

/-- `Screen::normal_mouse_report`: the legacy mouse encoding.  Returns the
list of payloads handed to `Messenger::send_bytes` (empty when the event
is dropped by the coordinate cap).  The `as u8` casts on the single-byte
coordinate paths are the `% 256` reductions (`Int.emod` agrees with the
two's-complement truncation of a nonnegative `i32`). -/
def normal_mouse_report (mode : Mode) (position : Pos) (button : Nat) :
    List (List Nat) :=
  let utf8 := mode.utf8_mouse
  let max_point : Int := if utf8 then 2015 else 223
  if position.row ≥ max_point ∨ (position.col : Int) ≥ max_point then
    []
  else
    let head : List Nat := [0x1b, 0x5b, 0x4d, (32 + button) % 256]
    let colBytes : List Nat :=
      if utf8 ∧ position.col ≥ 95 then
        mouse_pos_encode position.col
      else
        [(32 + 1 + position.col % 256) % 256]
    let rowBytes : List Nat :=
      if utf8 ∧ position.row ≥ 95 then
        mouse_pos_encode position.row.toNat
      else
        [((32 + 1 + position.row % 256) % 256).toNat]
    [head ++ colBytes ++ rowBytes]

/-- `Screen::sgr_mouse_report`: formats
`ESC [ < {button} ; {col+1} ; {row+1} {M|m}` and sends its bytes.  All
characters produced are ASCII, so `String::into_bytes` is the character
codes of the formatted string. -/
def sgr_mouse_report (pos : Pos) (button : Nat) (state : ElementState) :
    List (List Nat) :=
  let c : String := match state with
    | ElementState.Pressed => "M"
    | ElementState.Released => "m"
  let msg := "\x1b[<" ++ toString button ++ ";" ++ toString (pos.col + 1) ++ ";"
      ++ toString (pos.row + 1) ++ c
  [msg.toList.map Char.toNat]

/-- `Screen::mouse_report`: drops events above the viewport
(`pos.row < 0`), computes the modifier increment, and dispatches to the
SGR encoding when `Mode::SGR_MOUSE` is set, otherwise to the legacy
encoding with the button forced to the sentinel `3` on release.  The
`u8` additions `button + mods` are reduced `% 256`. -/
def mouse_report (mode : Mode) (modifiers : ModifiersState) (pos : Pos)
    (button : Nat) (state : ElementState) : List (List Nat) :=
  if pos.row < 0 then
    []
  else
    let mods := mods_value modifiers
    if mode.sgr_mouse then
      sgr_mouse_report pos ((button + mods) % 256) state
    else
      match state with
      | ElementState.Released => normal_mouse_report mode pos ((3 + mods) % 256)
      | ElementState.Pressed => normal_mouse_report mode pos ((button + mods) % 256)

/-- Spec-side description of a legacy coordinate encoding, following the
specification's words: the single byte `33 + coordinate`, except that in
UTF-8-extended mode a coordinate `≥ 95` becomes the two bytes
`0xC0 + value/64` and `0x80 + value%64` with `value = 33 + coordinate`. -/
def legacy_coord_bytes (utf8 : Bool) (coord : Nat) : List Nat :=
  if utf8 ∧ coord ≥ 95 then
    [0xC0 + (33 + coord) / 64, 0x80 + (33 + coord) % 64]
  else
    [33 + coord]

/-! ## Key bindings and the `ignore_chars` suppression flag -/

/-- `screen::bindings::Key`: a binding trigger / resolved key, either a
scancode or a virtual keycode (keycodes abstracted to `Nat`). -/
inductive Key where
  | Scancode (code : Nat)
  | Keycode (code : Nat)
deriving DecidableEq

/-- `screen::bindings::Action` (`Act` in `mod.rs`): the binding actions
dispatched by `Screen::input_keycode`.  The `Esc` payload is the escape
string; the `ViMotion` payload (a `ViMotion` value from the bindings
module, which is outside this file's sources) is abstracted away, as the
claims only distinguish `ReceiveChar` from the rest. -/
inductive Act where
  | ReceiveChar
  | Esc (s : String)
  | Paste
  | PasteSelection
  | Copy
  | ViMotion
  | WindowCreateNew
  | TabCreateNew
  | TabSwitchNext
  | TabCloseCurrent
  | IncreaseFontSize
  | DecreaseFontSize
  | ResetFontSize
  | None
deriving DecidableEq

/-- `screen::bindings::KeyBinding`, restricted to the fields
`Screen::input_keycode` reads directly: the trigger and the action.  The
mode/modifier masks live behind `is_triggered_by`, which is abstracted as
a predicate parameter below (the bindings module is outside this file's
sources). -/
structure KeyBinding where
  trigger : Key
  action : Act
deriving DecidableEq

/-- The key-selection `match` at the top of the binding loop in
`Screen::input_keycode`: a scancode trigger is matched against
`Key::Scancode(scancode)`; any other trigger is matched against
`Key::Keycode(virtual_keycode)` when a virtual keycode is present, and
the binding is skipped (`continue`) otherwise. -/
def binding_event_key (trigger : Key) (virtual_keycode : Option Nat)
    (scancode : Nat) : Option Key :=
  match trigger, virtual_keycode with
  | Key.Scancode _, _ => some (Key.Scancode scancode)
  | _, some key => some (Key.Keycode key)
  | _, none => none

/-- Whether a binding fires in `Screen::input_keycode`: its event key is
selected and `is_triggered_by` (abstracted as `trig`, already applied to
the current mode and modifiers) accepts it. -/
def binding_fires (trig : KeyBinding → Key → Bool) (virtual_keycode : Option Nat)
    (scancode : Nat) (b : KeyBinding) : Bool :=
  match binding_event_key b.trigger virtual_keycode scancode with
  | some key => trig b key
  | none => false

/-- One iteration's effect on the local `ignore_chars : Option<bool>` in
`Screen::input_keycode`:
`*ignore_chars.get_or_insert(true) &= binding.action != Act::ReceiveChar`
runs exactly when the binding fires. -/
def ignore_chars_step (fires : KeyBinding → Bool) (acc : Option Bool)
    (b : KeyBinding) : Option Bool :=
  if fires b then some (acc.getD true && decide (b.action ≠ Act.ReceiveChar)) else acc

/-- The value `Screen::input_keycode` stores into `self.ignore_chars`
after the binding loop: the fold of `ignore_chars_step` over the binding
table (started at `None`), defaulted to `false` (`unwrap_or(false)`).
The dispatched actions touch the context manager, messenger and layout
but never the binding table or the local flag, so the flag is this pure
fold.  `trig` abstracts `KeyBinding::is_triggered_by` at the current mode
and modifiers. -/
def input_keycode_ignore_chars (bindings : List KeyBinding)
    (trig : KeyBinding → Key → Bool) (virtual_keycode : Option Nat)
    (scancode : Nat) : Bool :=
  (bindings.foldl (ignore_chars_step (binding_fires trig virtual_keycode scancode))
    none).getD false

/-! ## Context manager and tab closing -/

/-- A session `Context`, abstracted to its identity (the pseudo-terminal,
grid and messenger it carries play no role in the tab-closing claim). -/
structure Context where
  id : Nat
deriving DecidableEq

/-- `screen::context::ContextManager`: the ordered collection of contexts
of one window and the index of the current one. -/
structure ContextManager where
  contexts : List Context
  current_index : Nat
deriving DecidableEq

/-- Modelled from the spec: `ContextManager::close_context`
(`src/rio/src/screen/context.rs` is not among the sources).  Per §4.1 it
refuses (no-op) when exactly one context remains, and otherwise removes
the current context and reassigns the current index to a deterministic
neighbor, preferring the previous index. -/
def close_context (cm : ContextManager) : ContextManager :=
  if cm.contexts.length ≤ 1 then cm
  else
    { contexts := cm.contexts.eraseIdx cm.current_index
      current_index := if 0 < cm.current_index then cm.current_index - 1 else 0 }

/-- `Screen::try_close_existent_tab`: closes the current tab via
`close_context` and returns `true` only when more than one context
remains; otherwise leaves the manager untouched and returns `false`. -/
def try_close_existent_tab (cm : ContextManager) : ContextManager × Bool :=
  if cm.contexts.length > 1 then (close_context cm, true)
  else (cm, false)

/-! ## Selection -/

/-- `selection::SelectionType`: the selection granularities. -/
inductive SelectionType where
  | Simple
  | Block
  | Semantic
  | Lines
deriving DecidableEq

/-- `crosswords::pos::Side`: which half of a cell a position refers to. -/
inductive Side where
  | Left
  | Right
deriving DecidableEq

/-- `event::ClickState`: the externally supplied click classification. -/
inductive ClickState where
  | Click
  | DoubleClick
  | TripleClick
  | None
deriving DecidableEq

/-- `clipboard::ClipboardType`: the two clipboard slots. -/
inductive ClipboardType where
  | Clipboard
  | Selection
deriving DecidableEq

/-- Modelled from the spec: the `Selection` state machine of
`src/rio/src/selection.rs` (not among the sources).  Per §3/§4.5 a
selection holds its granularity, an anchor position with its cell side,
the current end position with its side (`update` moves it), and whether
full-cell inclusion has been forced (`include_all`, used by vi-mode). -/
structure Selection where
  ty : SelectionType
  anchor : Pos
  anchor_side : Side
  end_pos : Pos
  end_side : Side
  include_all_cells : Bool
deriving DecidableEq

/-- Modelled from the spec: `Selection::new(ty, point, side)` starts a
selection anchored (and ending) at the click position. -/
def Selection.new (ty : SelectionType) (point : Pos) (side : Side) : Selection :=
  { ty := ty, anchor := point, anchor_side := side
    end_pos := point, end_side := side, include_all_cells := false }

/-- Modelled from the spec: `Selection::update(pos, side)` moves the end
of the selection to the given position and side. -/
def Selection.update (s : Selection) (pos : Pos) (side : Side) : Selection :=
  { s with end_pos := pos, end_side := side }

/-- Modelled from the spec: `Selection::include_all()` forces the
selection to include full cells (vi-mode). -/
def Selection.include_all (s : Selection) : Selection :=
  { s with include_all_cells := true }

/-- The render-facing selection range (`selection::SelectionRange`),
modelled from the spec as the pure projection of a selection the
renderer reads. -/
structure SelectionRange where
  ty : SelectionType
  start_pos : Pos
  end_pos : Pos
  include_all_cells : Bool
deriving DecidableEq

/-- Modelled from the spec: `Selection::to_range(&terminal)` projects the
selection into the render-facing range (§4.5: recomputed on every
start/update/clear; the grid argument is used for word/line expansion,
which the claims do not inspect). -/
def Selection.to_range (s : Selection) (_t : Unit) : Option SelectionRange :=
  some { ty := s.ty, start_pos := s.anchor, end_pos := s.end_pos
         include_all_cells := s.include_all_cells }

/-- The slice of the locked terminal grid (`Crosswords`) that the
selection operations of `Screen` read and write: the selection slot, the
mode, the vi cursor position, the bottommost line
(`Crosswords::bottommost_line()`), and the text of the current selection
(`Crosswords::selection_to_string()`, abstracted to its result). -/
structure Terminal where
  selection : Option Selection
  mode : Mode
  vi_mode_cursor : Pos
  bottommost_line : Int
  selection_text : Option String
deriving DecidableEq

/-- The slice of `Screen` state that the selection operations touch: the
current context's terminal, the render state's selection range
(`State::set_selection` writes it), the two clipboard slots, the
modifiers, and the mouse square side / click state. -/
structure ScreenSel where
  terminal : Terminal
  selection_range : Option SelectionRange
  clipboard : String
  clipboard_selection : String
  modifiers : ModifiersState
  mouse_square_side : Side
  mouse_click_state : ClickState
deriving DecidableEq

/-- `Screen::copy_selection`: reads the selection text (dropping empty
ones), and writes it to the requested clipboard slot — additionally to
the `Clipboard` slot when the request was for the `Selection` slot. -/
def copy_selection (ty : ClipboardType) (s : ScreenSel) : ScreenSel :=
  match s.terminal.selection_text.filter (fun t => !t.isEmpty) with
  | Option.none => s
  | some text =>
    let s := if ty = ClipboardType.Selection then { s with clipboard := text } else s
    match ty with
    | ClipboardType.Clipboard => { s with clipboard := text }
    | ClipboardType.Selection => { s with clipboard_selection := text }

/-- `Screen::clear_selection`: clears the grid's selection slot and the
render state's selection range. -/
def clear_selection (s : ScreenSel) : ScreenSel :=
  { s with terminal := { s.terminal with selection := Option.none }
           selection_range := Option.none }

/-- `Screen::start_selection`: snapshots the current selection text into
the primary-selection clipboard, creates the new selection, publishes its
projection to the render state, and stores it in the grid slot. -/
def start_selection (ty : SelectionType) (point : Pos) (side : Side)
    (s : ScreenSel) : ScreenSel :=
  let s := copy_selection ClipboardType.Selection s
  let selection := Selection.new ty point side
  { s with selection_range := selection.to_range ()
           terminal := { s.terminal with selection := some selection } }

/-- `Screen::on_left_click`: dispatches on the click state to start a
selection of the matching granularity (clearing first on a plain click,
with Ctrl selecting Block), then moves the vi cursor to the click
position when vi-mode is active. -/
def on_left_click (point : Pos) (s : ScreenSel) : ScreenSel :=
  let side := s.mouse_square_side
  let s1 :=
    match s.mouse_click_state with
    | ClickState.Click =>
      let s := clear_selection s
      if s.modifiers.ctrl then start_selection SelectionType.Block point side s
      else start_selection SelectionType.Simple point side s
    | ClickState.DoubleClick => start_selection SelectionType.Semantic point side s
    | ClickState.TripleClick => start_selection SelectionType.Lines point side s
    | ClickState.None => s
  if s1.terminal.mode.vi then
    { s1 with terminal := { s1.terminal with vi_mode_cursor := point } }
  else s1

/-- `Screen::update_selection`: takes the active selection (returning
unchanged when there is none), clamps the target row to the bottommost
line, updates the selection to the clamped position, relocates the
vi cursor and forces full-cell inclusion when vi-mode is active, then
republishes the projection and restores the selection. -/
def update_selection (pos : Pos) (side : Side) (s : ScreenSel) : ScreenSel :=
  match s.terminal.selection with
  | Option.none => s
  | some selection =>
    let pos : Pos := { pos with row := min pos.row s.terminal.bottommost_line }
    let selection := selection.update pos side
    let t := s.terminal
    let (t, selection) :=
      if t.mode.vi then ({ t with vi_mode_cursor := pos }, selection.include_all)
      else (t, selection)
    { s with selection_range := selection.to_range ()
             terminal := { t with selection := some selection } }

/-! ## Paste -/

/-- The `\r\n → \r` pass of
`text.replace("\r\n", "\r")` on the character sequence of a string:
leftmost, non-overlapping replacement. -/
def replace_crlf : List Char → List Char
  | '\r' :: '\n' :: rest => '\r' :: replace_crlf rest
  | c :: rest => c :: replace_crlf rest
  | [] => []

/-- `text.replace("\r\n", "\r").replace('\n', "\r")`: the newline
normalization used for non-bracketed paste (and `Act::Esc` payloads). -/
def normalize_newlines (text : List Char) : List Char :=
  (replace_crlf text).map (fun c => if c = '\n' then '\r' else c)

/-- `text.replace(['\x1b', '\x03'], "")`: removes every ESC (0x1b) and
0x03 character from the paste payload. -/
def paste_filter (text : List Char) : List Char :=
  text.filter (fun c => !(c = '\x1b' || c = '\x03'))

/-- `Screen::paste`: with `bracketed` and the grid's bracketed-paste mode
active, sends the start marker, the filtered text and the end marker as
three payloads; otherwise sends the newline-normalized text.  Payloads
are modelled at the character level (`String::into_bytes` is injective on
characters, and the markers are ASCII). -/
def paste (mode : Mode) (text : List Char) (bracketed : Bool) :
    List (List Char) :=
  if bracketed ∧ mode.bracketed_paste then
    ["\x1b[200~".toList, paste_filter text, "\x1b[201~".toList]
  else
    [normalize_newlines text]

/-! ## Theorems -/

theorem foldl_ignore_chars_some (F : KeyBinding → Bool) (l : List KeyBinding) (v : Bool) :
    l.foldl (ignore_chars_step F) (some v) =
      some (v && l.all (fun b => !F b || decide (b.action ≠ Act.ReceiveChar))) := by
  induction l generalizing v with
  | nil => simp
  | cons b t ih =>
    simp only [List.foldl_cons, List.all_cons, ignore_chars_step]
    by_cases h : F b
    · simp [h, ih, Bool.and_assoc]
    · simp [h, ih]

theorem foldl_ignore_chars_none (F : KeyBinding → Bool) (l : List KeyBinding) :
    l.foldl (ignore_chars_step F) Option.none =
      if l.any F then
        some (l.all (fun b => !F b || decide (b.action ≠ Act.ReceiveChar)))
      else Option.none := by
  induction l with
  | nil => simp
  | cons b t ih =>
    simp only [List.foldl_cons, List.any_cons, List.all_cons, ignore_chars_step]
    by_cases h : F b
    · simp [h, foldl_ignore_chars_some]
    · simp [h, ih]

/-- The suppression flag as a closed form: some binding fired, and every
fired binding's action differs from `ReceiveChar`. -/
theorem input_keycode_ignore_chars_eq (bindings : List KeyBinding)
    (trig : KeyBinding → Key → Bool) (virtual_keycode : Option Nat) (scancode : Nat) :
    input_keycode_ignore_chars bindings trig virtual_keycode scancode =
      (bindings.any (binding_fires trig virtual_keycode scancode) &&
        bindings.all (fun b => !binding_fires trig virtual_keycode scancode b
          || decide (b.action ≠ Act.ReceiveChar))) := by
  unfold input_keycode_ignore_chars
  rw [foldl_ignore_chars_none]
  by_cases h : bindings.any (binding_fires trig virtual_keycode scancode) <;> simp [h]

/-- C1: after `input_keycode` processes a key event (no IME preedit in
progress), the suppression flag `ignore_chars` is `true` iff at least one
binding in the table fired for the event and none of the fired bindings
had action `ReceiveChar`; in particular it is `false` when no binding
fired. -/
theorem input_keycode_ignore_chars_spec (bindings : List KeyBinding)
    (trig : KeyBinding → Key → Bool) (virtual_keycode : Option Nat) (scancode : Nat) :
    (input_keycode_ignore_chars bindings trig virtual_keycode scancode = true ↔
      (∃ b ∈ bindings, binding_fires trig virtual_keycode scancode b = true) ∧
        ∀ b ∈ bindings, binding_fires trig virtual_keycode scancode b = true →
          b.action ≠ Act.ReceiveChar) ∧
    ((∀ b ∈ bindings, binding_fires trig virtual_keycode scancode b = false) →
      input_keycode_ignore_chars bindings trig virtual_keycode scancode = false) := by
  constructor
  · rw [input_keycode_ignore_chars_eq]
    simp only [Bool.and_eq_true, List.any_eq_true, List.all_eq_true, Bool.or_eq_true,
      Bool.not_eq_true', decide_eq_true_eq]
    constructor
    · rintro ⟨h1, h2⟩
      refine ⟨h1, fun b hb hf => ?_⟩
      rcases h2 b hb with h | h
      · rw [h] at hf; cases hf
      · exact h
    · rintro ⟨h1, h2⟩
      refine ⟨h1, fun b hb => ?_⟩
      by_cases hf : binding_fires trig virtual_keycode scancode b
      · exact Or.inr (h2 b hb hf)
      · exact Or.inl (by simpa using hf)
  · intro hnone
    rw [input_keycode_ignore_chars_eq]
    have : bindings.any (binding_fires trig virtual_keycode scancode) = false := by
      simp only [List.any_eq_false]
      intro b hb
      simp [hnone b hb]
    simp [this]

theorem input_keycode_ignore_chars_spec_witness :
    input_keycode_ignore_chars [⟨Key.Scancode 1, Act.Copy⟩] (fun _ _ => true)
      Option.none 0 = true :=
  (input_keycode_ignore_chars_spec [⟨Key.Scancode 1, Act.Copy⟩] (fun _ _ => true)
    Option.none 0).1.mpr
    ⟨⟨⟨Key.Scancode 1, Act.Copy⟩, by decide, by decide⟩, by decide⟩

/-- C9: a mouse event whose resolved cell position has a negative row
(above the visible viewport) emits no bytes in any encoding mode. -/
theorem mouse_report_drops_scrollback (mode : Mode) (modifiers : ModifiersState)
    (pos : Pos) (button : Nat) (state : ElementState) (h : pos.row < 0) :
    mouse_report mode modifiers pos button state = [] := by
  unfold mouse_report
  rw [if_pos h]

theorem mouse_report_drops_scrollback_witness :
    mouse_report ⟨true, true, false, false⟩ ⟨false, false, false⟩ ⟨-1, 3⟩ 0
      ElementState.Pressed = [] :=
  mouse_report_drops_scrollback _ _ _ _ _ (by decide)

theorem normal_mouse_report_eq_nil_iff (mode : Mode) (pos : Pos) (button : Nat) :
    (normal_mouse_report mode pos button = [] ↔
      (if mode.utf8_mouse then (2015 : Int) else 223) ≤ pos.row ∨
        (if mode.utf8_mouse then (2015 : Int) else 223) ≤ (pos.col : Int)) := by
  unfold normal_mouse_report
  by_cases h : pos.row ≥ (if mode.utf8_mouse then (2015 : Int) else 223) ∨
      (pos.col : Int) ≥ (if mode.utf8_mouse then (2015 : Int) else 223)
  · rw [if_pos h]
    simpa using h
  · rw [if_neg h]
    simpa using h

/-- C3: under the legacy mouse encoding (SGR off), for an event in the
visible viewport, no bytes are emitted iff the column or the row reaches
the cap — 223, or 2015 in UTF-8-extended mouse mode; both coordinates
under the cap yield the encoded report, and the event is never
clamped. -/
theorem legacy_mouse_report_cap (mode : Mode) (modifiers : ModifiersState)
    (pos : Pos) (button : Nat) (state : ElementState)
    (hsgr : mode.sgr_mouse = false) (hrow : 0 ≤ pos.row) :
    (mouse_report mode modifiers pos button state = [] ↔
      (if mode.utf8_mouse then (2015 : Int) else 223) ≤ pos.row ∨
        (if mode.utf8_mouse then (2015 : Int) else 223) ≤ (pos.col : Int)) := by
  unfold mouse_report
  rw [if_neg (by omega), hsgr]
  cases state <;> simp only [Bool.false_eq_true, if_false] <;>
    exact normal_mouse_report_eq_nil_iff mode pos _

theorem legacy_mouse_report_cap_witness :
    mouse_report ⟨false, false, false, false⟩ ⟨false, false, false⟩ ⟨10, 300⟩ 0
      ElementState.Pressed = [] :=
  (legacy_mouse_report_cap ⟨false, false, false, false⟩ ⟨false, false, false⟩
    ⟨10, 300⟩ 0 ElementState.Pressed rfl (by decide)).mpr (Or.inr (by decide))

/-- C6: `try_close_existent_tab` is a refused no-op returning `false`
when exactly one context remains; with more than one it invokes
`close_context` and returns `true`; the collection never becomes
empty. -/
theorem try_close_existent_tab_spec (cm : ContextManager)
    (hidx : cm.current_index < cm.contexts.length) :
    (cm.contexts.length = 1 →
      (try_close_existent_tab cm).2 = false ∧ (try_close_existent_tab cm).1 = cm) ∧
    (1 < cm.contexts.length →
      (try_close_existent_tab cm).2 = true ∧
        (try_close_existent_tab cm).1 = close_context cm ∧
        (try_close_existent_tab cm).1.contexts.length = cm.contexts.length - 1) ∧
    (1 ≤ cm.contexts.length → 1 ≤ (try_close_existent_tab cm).1.contexts.length) := by
  unfold try_close_existent_tab close_context
  by_cases h : 1 < cm.contexts.length
  · rw [if_pos h, if_neg (by omega)]
    refine ⟨fun h1 => absurd h1 (by omega), fun _ => ⟨rfl, rfl, ?_⟩, fun _ => ?_⟩
    · simp [List.length_eraseIdx, hidx]
    · simp only [List.length_eraseIdx, hidx, if_pos]
      omega
  · rw [if_neg h]
    exact ⟨fun _ => ⟨rfl, rfl⟩, fun h1 => absurd h1 h, fun h1 => h1⟩

theorem mods_value_le (m : ModifiersState) : mods_value m ≤ 28 := by
  rcases m with ⟨s, a, c⟩
  cases s <;> cases a <;> cases c <;> decide

theorem normal_mouse_report_in_cap (mode : Mode) (pos : Pos) (button : Nat)
    (hrow0 : 0 ≤ pos.row)
    (hrowcap : pos.row < if mode.utf8_mouse then (2015 : Int) else 223)
    (hcolcap : (pos.col : Int) < if mode.utf8_mouse then (2015 : Int) else 223)
    (hbtn : button ≤ 223) :
    normal_mouse_report mode pos button =
      [[0x1b, 0x5b, 0x4d, 32 + button]
        ++ legacy_coord_bytes mode.utf8_mouse pos.col
        ++ legacy_coord_bytes mode.utf8_mouse pos.row.toNat] := by
  unfold normal_mouse_report legacy_coord_bytes mouse_pos_encode
  rw [if_neg (by push_neg; exact ⟨hrowcap, hcolcap⟩)]
  by_cases hu : mode.utf8_mouse = true
  · rw [hu] at hrowcap hcolcap
    simp only [if_true] at hrowcap hcolcap
    simp only [hu, true_and, if_true]
    by_cases hc : pos.col ≥ 95 <;> by_cases hr : pos.row ≥ 95
    · rw [if_pos hc, if_pos hr, if_pos (by omega : pos.col ≥ 95),
        if_pos (by omega : pos.row.toNat ≥ 95)]
      simp only [List.cons_append, List.nil_append, List.cons.injEq, and_true, true_and]
      omega
    · rw [if_pos hc, if_neg hr, if_pos (by omega : pos.col ≥ 95),
        if_neg (by omega : ¬ pos.row.toNat ≥ 95)]
      simp only [List.cons_append, List.nil_append, List.cons.injEq, and_true, true_and]
      omega
    · rw [if_neg hc, if_pos hr, if_neg (by omega : ¬ pos.col ≥ 95),
        if_pos (by omega : pos.row.toNat ≥ 95)]
      simp only [List.cons_append, List.nil_append, List.cons.injEq, and_true, true_and]
      omega
    · rw [if_neg hc, if_neg hr, if_neg (by omega : ¬ pos.col ≥ 95),
        if_neg (by omega : ¬ pos.row.toNat ≥ 95)]
      simp only [List.cons_append, List.nil_append, List.cons.injEq, and_true, true_and]
      omega
  · have hu' : mode.utf8_mouse = false := by simpa using hu
    simp only [hu', Bool.false_eq_true, if_false] at hrowcap hcolcap
    simp only [hu', Bool.false_eq_true, false_and, if_false]
    simp only [List.cons_append, List.nil_append, List.cons.injEq, and_true, true_and]
    omega

/-- C2: under the legacy encoding with in-cap coordinates, the report is
`ESC [ M`, then `32 + code` — `code = button + 4·shift + 8·alt + 16·ctrl`
for a press and `3` plus the modifier increments for a release — then per
coordinate the byte `33 + coordinate`, except that in UTF-8-extended
mouse mode a coordinate `≥ 95` yields the two bytes `0xC0 + value/64` and
`0x80 + value%64` with `value = 33 + coordinate`. -/
theorem legacy_mouse_report_bytes (mode : Mode) (modifiers : ModifiersState)
    (pos : Pos) (button : Nat) (state : ElementState)
    (hsgr : mode.sgr_mouse = false) (hrow0 : 0 ≤ pos.row)
    (hrowcap : pos.row < if mode.utf8_mouse then (2015 : Int) else 223)
    (hcolcap : (pos.col : Int) < if mode.utf8_mouse then (2015 : Int) else 223)
    (hcode : button + mods_value modifiers ≤ 223) :
    mouse_report mode modifiers pos button state =
      [[0x1b, 0x5b, 0x4d,
          32 + (match state with
                | ElementState.Pressed => button + mods_value modifiers
                | ElementState.Released => 3 + mods_value modifiers)]
        ++ legacy_coord_bytes mode.utf8_mouse pos.col
        ++ legacy_coord_bytes mode.utf8_mouse pos.row.toNat] := by
  have hm : mods_value modifiers ≤ 28 := mods_value_le modifiers
  unfold mouse_report
  rw [if_neg (by omega), hsgr]
  simp only [Bool.false_eq_true, if_false]
  cases state
  · rw [Nat.mod_eq_of_lt (show button + mods_value modifiers < 256 by omega)]
    exact normal_mouse_report_in_cap mode pos _ hrow0 hrowcap hcolcap (by omega)
  · rw [Nat.mod_eq_of_lt (show 3 + mods_value modifiers < 256 by omega)]
    exact normal_mouse_report_in_cap mode pos _ hrow0 hrowcap hcolcap (by omega)

theorem legacy_mouse_report_bytes_witness :
    mouse_report ⟨false, false, false, false⟩ ⟨false, false, false⟩ ⟨10, 50⟩ 0
      ElementState.Pressed = [[0x1b, 0x5b, 0x4d, 32, 83, 43]] :=
  (legacy_mouse_report_bytes ⟨false, false, false, false⟩ ⟨false, false, false⟩
    ⟨10, 50⟩ 0 ElementState.Pressed rfl (by decide) (by decide) (by decide)
    (by decide)).trans (by decide)

/-- C4: in SGR mouse mode the report is the text
`ESC [ < {code} ; {col+1} ; {row+1}` followed by `M` for a press and `m`
for a release, with `code` the button plus the modifier increments and no
coordinate limit; in particular button 0 at column 5, row 10 yields
`ESC[<0;6;11M` on press and `ESC[<0;6;11m` on release. -/
theorem sgr_mouse_report_spec (mode : Mode) (modifiers : ModifiersState)
    (pos : Pos) (button : Nat) (state : ElementState)
    (hsgr : mode.sgr_mouse = true) (hrow0 : 0 ≤ pos.row) :
    (mouse_report mode modifiers pos button state =
      [("\x1b[<" ++ toString ((button + mods_value modifiers) % 256) ++ ";"
          ++ toString (pos.col + 1) ++ ";" ++ toString (pos.row + 1)
          ++ match state with
             | ElementState.Pressed => "M"
             | ElementState.Released => "m").toList.map Char.toNat]) ∧
    mouse_report ⟨true, false, false, false⟩ ⟨false, false, false⟩ ⟨10, 5⟩ 0
        ElementState.Pressed =
      [[0x1b, 0x5b, 0x3c, 0x30, 0x3b, 0x36, 0x3b, 0x31, 0x31, 0x4d]] ∧
    mouse_report ⟨true, false, false, false⟩ ⟨false, false, false⟩ ⟨10, 5⟩ 0
        ElementState.Released =
      [[0x1b, 0x5b, 0x3c, 0x30, 0x3b, 0x36, 0x3b, 0x31, 0x31, 0x6d]] := by
  refine ⟨?_, by decide, by decide⟩
  unfold mouse_report sgr_mouse_report
  rw [if_neg (by omega), hsgr]
  cases state <;> simp

theorem sgr_mouse_report_spec_witness :
    mouse_report ⟨true, false, false, false⟩ ⟨false, false, false⟩ ⟨10, 5⟩ 0
        ElementState.Pressed =
      [[0x1b, 0x5b, 0x3c, 0x30, 0x3b, 0x36, 0x3b, 0x31, 0x31, 0x4d]] :=
  (sgr_mouse_report_spec ⟨true, false, false, false⟩ ⟨false, false, false⟩
    ⟨10, 5⟩ 0 ElementState.Pressed rfl (by decide)).2.1

theorem try_close_existent_tab_spec_witness :
    (try_close_existent_tab ⟨[⟨0⟩, ⟨1⟩], 1⟩).2 = true ∧
      (try_close_existent_tab ⟨[⟨0⟩, ⟨1⟩], 1⟩).1 = close_context ⟨[⟨0⟩, ⟨1⟩], 1⟩ ∧
      (try_close_existent_tab ⟨[⟨0⟩, ⟨1⟩], 1⟩).1.contexts.length = 1 :=
  (try_close_existent_tab_spec ⟨[⟨0⟩, ⟨1⟩], 1⟩ (by decide)).2.1 (by decide)

theorem copy_selection_terminal (ty : ClipboardType) (s : ScreenSel) :
    (copy_selection ty s).terminal = s.terminal := by
  unfold copy_selection
  cases s.terminal.selection_text.filter (fun t => !t.isEmpty) with
  | none => rfl
  | some text => cases ty <;> simp

/-- C7: `on_left_click` starts a selection whose granularity is
determined by the click state — `Click` starts `Simple` (`Block` when
Ctrl is held), `DoubleClick` starts `Semantic`, `TripleClick` starts
`Lines` — and after `clear_selection` the render-state selection range is
`None`. -/
theorem on_left_click_spec (s : ScreenSel) (point : Pos) :
    (s.mouse_click_state = ClickState.Click → s.modifiers.ctrl = true →
      (on_left_click point s).terminal.selection.map Selection.ty =
        some SelectionType.Block) ∧
    (s.mouse_click_state = ClickState.Click → s.modifiers.ctrl = false →
      (on_left_click point s).terminal.selection.map Selection.ty =
        some SelectionType.Simple) ∧
    (s.mouse_click_state = ClickState.DoubleClick →
      (on_left_click point s).terminal.selection.map Selection.ty =
        some SelectionType.Semantic) ∧
    (s.mouse_click_state = ClickState.TripleClick →
      (on_left_click point s).terminal.selection.map Selection.ty =
        some SelectionType.Lines) ∧
    (clear_selection s).selection_range = Option.none := by
  refine ⟨?_, ?_, ?_, ?_, rfl⟩ <;> intro h1 <;> try intro h2
  all_goals
    simp only [on_left_click, start_selection, clear_selection, h1,
      copy_selection_terminal]
  all_goals try simp only [h2, Bool.false_eq_true, if_false, if_true]
  all_goals by_cases hv : s.terminal.mode.vi <;>
    simp [hv, Selection.new, copy_selection_terminal]

theorem on_left_click_spec_witness :
    (on_left_click ⟨2, 3⟩
        ⟨⟨Option.none, ⟨false, false, false, false⟩, ⟨0, 0⟩, 10, Option.none⟩,
          Option.none, "", "", ⟨false, false, true⟩, Side.Left,
          ClickState.Click⟩).terminal.selection.map Selection.ty =
      some SelectionType.Block :=
  (on_left_click_spec
    ⟨⟨Option.none, ⟨false, false, false, false⟩, ⟨0, 0⟩, 10, Option.none⟩,
      Option.none, "", "", ⟨false, false, true⟩, Side.Left,
      ClickState.Click⟩ ⟨2, 3⟩).1 rfl rfl

/-- C8: `update_selection` with an active selection first clamps the
target row to the bottommost line, updates the selection to the clamped
position, relocates the vi cursor there and forces full-cell inclusion
when vi-mode is active, and recomputes the render-facing projection from
the updated selection. -/
theorem update_selection_spec (s : ScreenSel) (pos : Pos) (side : Side)
    (sel : Selection) (hsel : s.terminal.selection = some sel) :
    (update_selection pos side s).terminal.selection =
      some (if s.terminal.mode.vi then
              ((sel.update ⟨min pos.row s.terminal.bottommost_line, pos.col⟩
                side).include_all)
            else
              sel.update ⟨min pos.row s.terminal.bottommost_line, pos.col⟩ side) ∧
    min pos.row s.terminal.bottommost_line ≤ s.terminal.bottommost_line ∧
    (pos.row ≤ s.terminal.bottommost_line →
      (⟨min pos.row s.terminal.bottommost_line, pos.col⟩ : Pos) = pos) ∧
    (s.terminal.mode.vi = true →
      (update_selection pos side s).terminal.vi_mode_cursor =
        ⟨min pos.row s.terminal.bottommost_line, pos.col⟩ ∧
      ((update_selection pos side s).terminal.selection.map
        Selection.include_all_cells) = some true) ∧
    (update_selection pos side s).selection_range =
      ((update_selection pos side s).terminal.selection.getD sel).to_range () := by
  refine ⟨?_, min_le_right _ _, fun h => ?_, fun h => ⟨?_, ?_⟩, ?_⟩
  · by_cases hv : s.terminal.mode.vi <;>
      simp [update_selection, hsel, hv, Selection.update, Selection.include_all]
  · rcases pos with ⟨r, c⟩
    simp only [Pos.mk.injEq, and_true]
    exact min_eq_left h
  · simp [update_selection, hsel, h]
  · simp [update_selection, hsel, h, Selection.update, Selection.include_all]
  · by_cases hv : s.terminal.mode.vi <;>
      simp [update_selection, hsel, hv, Selection.update, Selection.include_all,
        Selection.to_range]

theorem update_selection_spec_witness :
    (update_selection ⟨25, 4⟩ Side.Right
        ⟨⟨some (Selection.new SelectionType.Simple ⟨1, 1⟩ Side.Left),
            ⟨false, false, true, false⟩, ⟨0, 0⟩, 20, Option.none⟩,
          Option.none, "", "", ⟨false, false, false⟩, Side.Left,
          ClickState.None⟩).terminal.vi_mode_cursor = ⟨20, 4⟩ :=
  ((update_selection_spec
    ⟨⟨some (Selection.new SelectionType.Simple ⟨1, 1⟩ Side.Left),
        ⟨false, false, true, false⟩, ⟨0, 0⟩, 20, Option.none⟩,
      Option.none, "", "", ⟨false, false, false⟩, Side.Left,
      ClickState.None⟩ ⟨25, 4⟩ Side.Right
    (Selection.new SelectionType.Simple ⟨1, 1⟩ Side.Left) rfl).2.2.2.1 rfl).1.trans
    (by decide)

/-- C10: with `bracketed` and bracketed-paste mode active, `paste` sends
exactly three payloads in order — the start marker `ESC[200~`, the text
with every ESC (0x1b) and 0x03 character removed, and the end marker
`ESC[201~` — so the pasted payload can never contain the end-of-paste
sequence; otherwise it sends the text with `\r\n` and `\n` each replaced
by `\r`. -/
theorem paste_spec (mode : Mode) (text : List Char) (bracketed : Bool) :
    (bracketed = true → mode.bracketed_paste = true →
      paste mode text bracketed =
        ["\x1b[200~".toList, paste_filter text, "\x1b[201~".toList] ∧
      ¬ List.IsInfix "\x1b[201~".toList (paste_filter text)) ∧
    (¬ (bracketed = true ∧ mode.bracketed_paste = true) →
      paste mode text bracketed = [normalize_newlines text]) := by
  constructor
  · intro hb hm
    refine ⟨by rw [paste, if_pos ⟨hb, hm⟩], ?_⟩
    intro hinf
    have h1 : '\x1b' ∈ "\x1b[201~".toList := by decide
    have h2 := hinf.subset h1
    rw [paste_filter, List.mem_filter] at h2
    exact absurd h2.2 (by decide)
  · intro h
    rw [paste, if_neg (by simpa using h)]

theorem paste_spec_witness :
    paste ⟨false, false, false, true⟩ "a\x1b[201~b\x03".toList true =
      ["\x1b[200~".toList, paste_filter "a\x1b[201~b\x03".toList,
        "\x1b[201~".toList] ∧
    ¬ List.IsInfix "\x1b[201~".toList (paste_filter "a\x1b[201~b\x03".toList) :=
  (paste_spec ⟨false, false, false, true⟩ "a\x1b[201~b\x03".toList true).1 rfl rfl

end Rio
